import Mathlib

/-!
Shallow embedding of `csv_to_work_history_parser` (`src/main.rs`).

The program reads employment-history rows from a CSV file, decodes each row
into a `WorkHistory` value (dates parsed with chrono's
`NaiveDate::parse_from_str(date, "%m/%d/%Y")`), derives a short location
string from the free-text address, sorts the entries by end date descending
with Rust's stable `sort_by`, and renders a fixed-layout text report
(dates rendered with chrono's `"%m/%Y"`).

Strings are modelled as Lean `String` values and, where character-level
processing is involved, as their underlying `List Char`.  Machine integers
do not occur in any observable way: all numeric values involved are small
(months, days, years bounded by chrono's year range), so `Nat`/`Int` are
exact models.  Fallible operations return `Except`; the one Rust panic that
the decoder can hit (out-of-bounds `record[i]` indexing on a short row) is
modelled as a distinguished error constructor so that it remains observable.
-/

/-! ### Characters: Unicode white space and ASCII digits

Rust's `char::is_whitespace` (used by `str::trim`, `str::trim_start` and
`str::split_whitespace`, and by chrono's numeric-field parsing) tests the
Unicode `White_Space` property.  That property holds for exactly the code
points enumerated below. -/

/-- The Unicode `White_Space` code points: U+0009..U+000D, U+0020, U+0085,
U+00A0, U+1680, U+2000..U+200A, U+2028, U+2029, U+202F, U+205F, U+3000.
This is Rust's `char::is_whitespace`. -/
def isRustWhitespace (c : Char) : Bool :=
  let n := c.toNat
  n = 0x09 || n = 0x0A || n = 0x0B || n = 0x0C || n = 0x0D || n = 0x20 ||
  n = 0x85 || n = 0xA0 || n = 0x1680 || (0x2000 ≤ n && n ≤ 0x200A) ||
  n = 0x2028 || n = 0x2029 || n = 0x202F || n = 0x205F || n = 0x3000

/-- ASCII digit test, Rust's `u8::is_ascii_digit` / `char::is_ascii_digit`. -/
def isAsciiDigit (c : Char) : Bool :=
  48 ≤ c.toNat && c.toNat ≤ 57

/-- Rust `str::trim_start`: drop leading Unicode white space. -/
def rustTrimStart (l : List Char) : List Char :=
  l.dropWhile isRustWhitespace

/-- Rust `str::trim_end`: drop trailing Unicode white space. -/
def rustTrimEnd (l : List Char) : List Char :=
  (l.reverse.dropWhile isRustWhitespace).reverse

/-- Rust `str::trim`: drop white space at both ends. -/
def rustTrim (l : List Char) : List Char :=
  rustTrimEnd (rustTrimStart l)

/-! ### Calendar dates (chrono `NaiveDate`)

A `NaiveDate` is a proleptic-Gregorian calendar date with no time of day and
no timezone.  Only dates whose year lies in chrono's supported range
(`MIN_YEAR = i32::MIN >> 13 = -262144` to `MAX_YEAR = i32::MAX >> 13 =
262143`) are constructible; `Date.valid` captures constructibility and every
`NaiveDate` produced by the program satisfies it. -/

/-- A calendar date: chrono `NaiveDate` (year, month, day). -/
structure Date where
  year : Int
  month : Nat
  day : Nat
deriving DecidableEq, Repr

/-- Proleptic Gregorian leap-year rule, as used by chrono. -/
def isLeapYear (y : Int) : Bool :=
  y % 4 == 0 && (y % 100 != 0 || y % 400 == 0)

/-- Number of days in a month of a given year (Gregorian calendar). -/
def daysInMonth (y : Int) (m : Nat) : Nat :=
  if m = 2 then (if isLeapYear y then 29 else 28)
  else if m = 4 ∨ m = 6 ∨ m = 9 ∨ m = 11 then 30
  else 31

/-- Constructibility of a chrono `NaiveDate` via `from_ymd_opt`: the year is
within chrono's supported range, the month is 1..=12 and the day is valid
for that month and year. -/
def Date.valid (d : Date) : Bool :=
  decide (-262144 ≤ d.year ∧ d.year ≤ 262143 ∧
    1 ≤ d.month ∧ d.month ≤ 12 ∧ 1 ≤ d.day ∧ d.day ≤ daysInMonth d.year d.month)

/-- Chronological order on dates (`NaiveDate`'s `Ord`): lexicographic on
(year, month, day). -/
def Date.le (a b : Date) : Bool :=
  decide (a.year < b.year ∨ (a.year = b.year ∧
    (a.month < b.month ∨ (a.month = b.month ∧ a.day ≤ b.day))))

/-! ### chrono `NaiveDate::parse_from_str` with format `"%m/%d/%Y"`

chrono parses the three format items `%m`, `/`, `%d`, `/`, `%Y` in order:

* each numeric item first skips leading Unicode white space, then consumes
  at least 1 and at most `width` ASCII digits (`width` is 2 for `%m` and
  `%d`, and 4 for `%Y` when no sign is present);
* `%Y` additionally accepts a leading `-` or `+` sign, in which case the
  digit count is unbounded (huge magnitudes are rejected later by the year
  range check, which subsumes chrono's `i64`/`i32` overflow rejections);
* the literal item `/` must match exactly;
* after all items, any unconsumed input is an error (`TOO_LONG`);
* finally the (year, month, day) triple must form a constructible
  `NaiveDate` (month 1..=12, day valid for the month, year in range). -/

/-- Numeric value of a digit character. -/
def digitVal (c : Char) : Nat := c.toNat - 48

/-- Accumulating decimal value of a digit string. -/
def digitsVal (acc : Nat) : List Char → Nat
  | [] => acc
  | c :: cs => digitsVal (acc * 10 + digitVal c) cs

/-- Consume up to `maxw` leading ASCII digits, returning the accumulated
value, the number of digits consumed, and the remaining input
(chrono's `scan::number` digit loop). -/
def scanDigits (acc : Nat) : Nat → List Char → Nat × Nat × List Char
  | 0, s => (acc, 0, s)
  | maxw + 1, s =>
    match s with
    | [] => (acc, 0, [])
    | c :: rest =>
      if isAsciiDigit c then
        let r := scanDigits (acc * 10 + digitVal c) maxw rest
        (r.1, r.2.1 + 1, r.2.2)
      else (acc, 0, c :: rest)

/-- chrono `scan::number(s, 1, maxw)`: at least one and at most `maxw`
ASCII digits; `none` models the `TOO_SHORT`/`INVALID` errors. -/
def scanNumber (maxw : Nat) (s : List Char) : Option (Nat × List Char) :=
  let r := scanDigits 0 maxw s
  if r.2.1 = 0 then none else some (r.1, r.2.2)

/-- chrono's `%Y` numeric scan: an optional `-`/`+` sign followed by digits;
unsigned years read at most 4 digits, signed years have no digit-count cap
(capped here at the input length, which consumes the same digits). -/
def parseSignedYear (s : List Char) : Option (Int × List Char) :=
  match s with
  | [] => none
  | c :: rest =>
    if c = '-' then
      Option.map (fun p => (-(p.1 : Int), p.2)) (scanNumber rest.length rest)
    else if c = '+' then
      Option.map (fun p => ((p.1 : Int), p.2)) (scanNumber rest.length rest)
    else
      Option.map (fun p => ((p.1 : Int), p.2)) (scanNumber 4 (c :: rest))

/-- Match the literal format item `/`. -/
def expectSlash (s : List Char) : Option (List Char) :=
  match s with
  | '/' :: rest => some rest
  | _ => none

/-- chrono `NaiveDate::parse_from_str` with `"%m/%d/%Y"`, character level:
`%m`, literal `/`, `%d`, literal `/`, `%Y` in sequence, then the check that
the whole input was consumed, then the calendar validity check. -/
def parseDateChars (s : List Char) : Option Date :=
  Option.bind (scanNumber 2 (rustTrimStart s)) (fun p1 =>
  Option.bind (expectSlash p1.2) (fun s2 =>
  Option.bind (scanNumber 2 (rustTrimStart s2)) (fun p2 =>
  Option.bind (expectSlash p2.2) (fun s4 =>
  Option.bind (parseSignedYear (rustTrimStart s4)) (fun p3 =>
    if p3.2 = [] then
      if (⟨p3.1, p1.1, p2.1⟩ : Date).valid then some ⟨p3.1, p1.1, p2.1⟩
      else none
    else none)))))

/-- Model of `parse_date` (src/main.rs lines 147-150):
`NaiveDate::parse_from_str(date, "%m/%d/%Y")` with the anyhow context
message `format!("Failed to parse date: {}", date)` attached on failure. -/
def parse_date (date : String) : Except String Date :=
  match parseDateChars date.data with
  | some d => Except.ok d
  | none => Except.error ("Failed to parse date: " ++ date)

/-! ### Location extraction -/

/-- Rust `str::split(',')` on the underlying characters: separators are
single commas, empty segments are preserved, and the empty input yields one
empty segment (so the number of segments is always comma count + 1). -/
def splitOnComma : List Char → List (List Char)
  | [] => [[]]
  | c :: rest =>
    if c = ',' then [] :: splitOnComma rest
    else
      match splitOnComma rest with
      | [] => [[c]]
      | seg :: segs => (c :: seg) :: segs

/-- Rust `s.trim().split_whitespace().next()`: the first maximal run of
non-white-space characters, if any. -/
def firstWhitespaceToken (l : List Char) : Option (List Char) :=
  match (rustTrim l).dropWhile isRustWhitespace with
  | [] => none
  | c :: rest => some ((c :: rest).takeWhile (fun ch => !isRustWhitespace ch))

/-- Model of `extract_location` (src/main.rs lines 159-178).

```rust
if address.matches(',').count() == 1 { return address.to_string(); }
let parts: Vec<&str> = address.split(',').collect();
match parts.len() {
    0 => String::new(),
    1 => parts[0].trim().to_string(),
    2 => format!("{}", parts[1].trim()),
    _ => {
        let state_part = parts.get(2)
            .and_then(|s| s.trim().split_whitespace().next())
            .unwrap_or("");
        format!("{}, {}", parts[1].trim(), state_part)
    }
}
```

The four match arms below correspond to `parts.len()` being 0, 1, 2 and
3-or-more. -/
def extract_location (address : String) : String :=
  if address.data.count ',' = 1 then
    address
  else
    match splitOnComma address.data with
    | [] => ""
    | [p0] => String.mk (rustTrim p0)
    | [_, p1] => String.mk (rustTrim p1)
    | _ :: p1 :: p2 :: _ =>
      let statePart := (firstWhitespaceToken p2).getD []
      String.mk (rustTrim p1) ++ ", " ++ String.mk statePart

/-! ### Date rendering (chrono `"%m/%Y"`) -/

/-- Pad a decimal string with leading zeros to width `w`. -/
def padZeros (w : Nat) (s : String) : String :=
  String.mk (List.replicate (w - s.length) '0') ++ s

/-- chrono `%m` when formatting: the month, zero-padded to 2 digits. -/
def formatMonth (m : Nat) : String :=
  padZeros 2 (Nat.repr m)

/-- chrono `%Y` when formatting: years 0..=9999 are zero-padded to 4
digits; years outside that range are written with an explicit sign and
zero-padded to a total width of 5 including the sign
(Rust `write!("{:+05}", year)`). -/
def formatYear (y : Int) : String :=
  if 0 ≤ y ∧ y < 10000 then padZeros 4 (Nat.repr y.toNat)
  else if y < 0 then "-" ++ padZeros 4 (Nat.repr (-y).toNat)
  else "+" ++ padZeros 4 (Nat.repr y.toNat)

/-- Model of `format_date` (src/main.rs lines 187-189):
`date.format("%m/%Y").to_string()`. -/
def format_date (date : Date) : String :=
  formatMonth date.month ++ "/" ++ formatYear date.year

/-! ### The record type and the decoder -/

/-- One work-history entry (the `WorkHistory` struct, src/main.rs 70-84). -/
structure WorkHistory where
  company : String
  position : String
  start_date : Date
  end_date : Date
  location : String
  responsibilities : String
deriving DecidableEq, Repr

/-- How one loop iteration of `process_work_history` can fail. -/
inductive RowError where
  /-- A Rust panic from out-of-bounds `StringRecord` indexing `record[i]`
  (the `csv::StringRecord` `Index` impl calls `.get(i).unwrap()`); the
  process aborts without producing an error value. -/
  | panicIndexOutOfBounds (idx : Nat)
  /-- `parse_date` failure propagated by `?`, carrying the anyhow message. -/
  | dateFormat (msg : String)
  /-- A failure of the csv reader for one record, wrapped by
  `.context("Failed to read CSV record")`. -/
  | csvRead (msg : String)
deriving DecidableEq, Repr

/-- `record[i]` on a `csv::StringRecord`. Indexing past the end of the
record panics. -/
def recordIndex (record : List String) (i : Nat) : Except RowError String :=
  match record[i]? with
  | some s => Except.ok s
  | none => Except.error (RowError.panicIndexOutOfBounds i)

/-- Decoding of one data row into a `WorkHistory` (src/main.rs 215-222),
with the fields evaluated in the order they appear in the struct literal:
`record[0]`, `record[1]`, `parse_date(&record[2])?`,
`parse_date(&record[3])?`, `extract_location(&record[4])`, `record[6]`. -/
def decodeRecord (record : List String) : Except RowError WorkHistory := do
  let company ← recordIndex record 0
  let position ← recordIndex record 1
  let sdText ← recordIndex record 2
  let start_date ← match parse_date sdText with
    | Except.ok d => Except.ok d
    | Except.error e => Except.error (RowError.dateFormat e)
  let edText ← recordIndex record 3
  let end_date ← match parse_date edText with
    | Except.ok d => Except.ok d
    | Except.error e => Except.error (RowError.dateFormat e)
  let addr ← recordIndex record 4
  let location := extract_location addr
  let responsibilities ← recordIndex record 6
  pure { company, position, start_date, end_date, location, responsibilities }

/-- One iteration of the read loop: either the csv reader failed to produce
the record, or the record is decoded. -/
def readDecodeOne (item : Except String (List String)) : Except RowError WorkHistory :=
  match item with
  | Except.error msg => Except.error (RowError.csvRead msg)
  | Except.ok record => decodeRecord record

/-- The full read loop (src/main.rs 212-225): data rows are processed
strictly in order and the first failure aborts the loop. -/
def readAndDecodeAll : List (Except String (List String)) → Except RowError (List WorkHistory)
  | [] => Except.ok []
  | item :: rest => do
    let wh ← readDecodeOne item
    let tail ← readAndDecodeAll rest
    pure (wh :: tail)

/-! ### Sorting and rendering -/

/-- `work_histories.sort_by(|a, b| b.end_date.cmp(&a.end_date))`
(src/main.rs 228).  Rust's `sort_by` is a stable sort whose output is
ordered by the comparator; `mergeSort` with the relation
"`a` may precede `b` iff `b.end_date <= a.end_date`" is exactly that. -/
def sortWorkHistories (l : List WorkHistory) : List WorkHistory :=
  l.mergeSort (fun a b => Date.le b.end_date a.end_date)

/-- The text block written for the entry numbered `n`
(src/main.rs 236-243): seven `writeln!` lines and one empty `writeln!`. -/
def renderEntry (n : Nat) (h : WorkHistory) : String :=
  "Work History " ++ Nat.repr n ++ "\n" ++
  "Company: " ++ h.company ++ "\n" ++
  "Position: " ++ h.position ++ "\n" ++
  "Start Date: " ++ format_date h.start_date ++ "\n" ++
  "End Date: " ++ format_date h.end_date ++ "\n" ++
  "Location: " ++ h.location ++ "\n" ++
  "Responsibilities: " ++ h.responsibilities ++ "\n" ++
  "\n"

/-- The render loop with its running 1-based counter
(`for (index, history) in work_histories.iter().enumerate()` writing
`index + 1`): `renderFrom i [h1, ..., hk]` is the text written for entries
numbered `i, i+1, ..., i+k-1`. -/
def renderFrom (i : Nat) : List WorkHistory → String
  | [] => ""
  | h :: t => renderEntry i h ++ renderFrom (i + 1) t

/-- Everything `process_work_history` writes to the output file
(src/main.rs 235-244). -/
def renderReport (l : List WorkHistory) : String :=
  renderFrom 1 l

/-- Model of `process_work_history` (src/main.rs 199-247) after the input
file has been opened: the input is the sequence of read results for the
data rows (the csv reader consumes the header row itself).  The first
component is the final content of the output file — `none` when the run
failed before `File::create`, i.e. nothing was ever written — and the
second component is the function's `Result`. -/
def processWorkHistory (rows : List (Except String (List String))) :
    Option String × Except RowError Unit :=
  match readAndDecodeAll rows with
  | Except.error e => (none, Except.error e)
  | Except.ok hs => (some (renderReport (sortWorkHistories hs)), Except.ok ())

/-! ### Specification-side definitions

These definitions follow the words of the specification (not the source);
they exist to be compared with the source-derived definitions above. -/

/-- The date format as the specification words it: exactly a two-digit
month, `/`, a two-digit day, `/`, a four-digit year, with numeric
components, in-range month and day, and nothing else. -/
def strictMMDDYYYY (s : String) : Bool :=
  match s.data with
  | [m1, m2, c1, d1, d2, c2, y1, y2, y3, y4] =>
    isAsciiDigit m1 && isAsciiDigit m2 && (c1 == '/') &&
    isAsciiDigit d1 && isAsciiDigit d2 && (c2 == '/') &&
    isAsciiDigit y1 && isAsciiDigit y2 && isAsciiDigit y3 && isAsciiDigit y4 &&
    (let m := digitsVal 0 [m1, m2]
     let d := digitsVal 0 [d1, d2]
     let y := digitsVal 0 [y1, y2, y3, y4]
     decide (1 ≤ m ∧ m ≤ 12 ∧ 1 ≤ d ∧ d ≤ daysInMonth (y : Int) m))
  | _ => false

/-- The year field of a date line as the specification words it: the
four-digit zero-padded year taken from the stored calendar date (with a
bare `-` for negative years, but never an explicit `+`). -/
def claimFourDigitYear (y : Int) : String :=
  if y < 0 then "-" ++ padZeros 4 (Nat.repr (-y).toNat)
  else padZeros 4 (Nat.repr y.toNat)

/-- A rendered date as the specification words it: zero-padded two-digit
month, `/`, four-digit year. -/
def claimDate (d : Date) : String :=
  padZeros 2 (Nat.repr d.month) ++ "/" ++ claimFourDigitYear d.year

/-- The `k`-th output block as the specification words it. -/
def claimBlock (k : Nat) (h : WorkHistory) : String :=
  "Work History " ++ Nat.repr k ++ "\n" ++
  "Company: " ++ h.company ++ "\n" ++
  "Position: " ++ h.position ++ "\n" ++
  "Start Date: " ++ claimDate h.start_date ++ "\n" ++
  "End Date: " ++ claimDate h.end_date ++ "\n" ++
  "Location: " ++ h.location ++ "\n" ++
  "Responsibilities: " ++ h.responsibilities ++ "\n" ++
  "\n"

/-- The whole report as the specification words it: the blocks of the
entries in sequence, the `k`-th block numbered `k` (1-based). -/
def claimRender (l : List WorkHistory) : String :=
  ((l.enum).map (fun p => claimBlock (p.1 + 1) p.2)).foldr (· ++ ·) ""

/-- The year field as amended: years 0..=9999 are zero-padded to four
digits, years outside that range carry an explicit sign. -/
def claimYearAmended (y : Int) : String :=
  if 0 ≤ y ∧ y ≤ 9999 then padZeros 4 (Nat.repr y.toNat)
  else if y < 0 then "-" ++ padZeros 4 (Nat.repr (-y).toNat)
  else "+" ++ padZeros 4 (Nat.repr y.toNat)

/-- A rendered date as amended. -/
def claimDateAmended (d : Date) : String :=
  padZeros 2 (Nat.repr d.month) ++ "/" ++ claimYearAmended d.year

/-- The `k`-th output block as amended (only the year rule changes). -/
def claimBlockAmended (k : Nat) (h : WorkHistory) : String :=
  "Work History " ++ Nat.repr k ++ "\n" ++
  "Company: " ++ h.company ++ "\n" ++
  "Position: " ++ h.position ++ "\n" ++
  "Start Date: " ++ claimDateAmended h.start_date ++ "\n" ++
  "End Date: " ++ claimDateAmended h.end_date ++ "\n" ++
  "Location: " ++ h.location ++ "\n" ++
  "Responsibilities: " ++ h.responsibilities ++ "\n" ++
  "\n"

/-- The whole report as amended. -/
def claimRenderAmended (l : List WorkHistory) : String :=
  ((l.enum).map (fun p => claimBlockAmended (p.1 + 1) p.2)).foldr (· ++ ·) ""

/-! ### Helper lemmas: splitting on commas -/

theorem splitOnComma_ne_nil (l : List Char) : splitOnComma l ≠ [] := by
  induction l with
  | nil => simp [splitOnComma]
  | cons c rest ih =>
    by_cases hc : c = ','
    · simp [splitOnComma, hc]
    · rcases hs : splitOnComma rest with _ | ⟨seg, segs⟩
      · exact absurd hs ih
      · simp [splitOnComma, hc, hs]

theorem length_splitOnComma (l : List Char) :
    (splitOnComma l).length = l.count ',' + 1 := by
  induction l with
  | nil => simp [splitOnComma]
  | cons c rest ih =>
    by_cases hc : c = ','
    · subst hc
      simp [splitOnComma, List.count_cons, ih]
    · rcases hs : splitOnComma rest with _ | ⟨seg, segs⟩
      · exact absurd hs (splitOnComma_ne_nil rest)
      · rw [hs] at ih
        simp only [splitOnComma, if_neg hc, hs]
        simp only [List.length_cons] at ih ⊢
        simp [List.count_cons, hc, ih]

theorem splitOnComma_count_zero (l : List Char) (h : l.count ',' = 0) :
    splitOnComma l = [l] := by
  induction l with
  | nil => rfl
  | cons c rest ih =>
    simp only [List.count_cons] at h
    have hc : ¬(c = ',') := by
      intro hcc; subst hcc; simp at h
    have hrest : rest.count ',' = 0 := by
      rcases Nat.eq_zero_of_add_eq_zero_right h with h1
      omega
    simp [splitOnComma, hc, ih hrest]

theorem not_mem_comma_splitOnComma (l : List Char) :
    ∀ seg ∈ splitOnComma l, ',' ∉ seg := by
  induction l with
  | nil =>
    intro seg hseg
    simp [splitOnComma] at hseg
    subst hseg; simp
  | cons c rest ih =>
    intro seg hseg
    by_cases hc : c = ','
    · subst hc
      simp only [splitOnComma, if_pos rfl] at hseg
      rcases List.mem_cons.mp hseg with rfl | h
      · simp
      · exact ih seg h
    · rcases hs : splitOnComma rest with _ | ⟨s0, segs⟩
      · exact absurd hs (splitOnComma_ne_nil rest)
      · simp only [splitOnComma, if_neg hc, hs] at hseg
        rcases List.mem_cons.mp hseg with rfl | h
        · intro hmem
          rcases List.mem_cons.mp hmem with heq | hm
          · exact hc heq.symm
          · exact ih s0 (by rw [hs]; exact List.mem_cons_self s0 segs) hm
        · exact ih seg (by rw [hs]; exact List.mem_cons_of_mem s0 h)

theorem mem_of_mem_rustTrim {c : Char} {l : List Char} (h : c ∈ rustTrim l) : c ∈ l := by
  unfold rustTrim rustTrimEnd rustTrimStart at h
  rw [List.mem_reverse] at h
  have h2 : c ∈ (l.dropWhile isRustWhitespace).reverse :=
    (List.dropWhile_sublist _).subset h
  rw [List.mem_reverse] at h2
  exact (List.dropWhile_sublist _).subset h2

/-! ### Claims about `extract_location` -/

/-- Claim C5: for every address string containing exactly one comma,
`extract_location` returns the original address string unchanged, including
its internal white space and the comma. -/
theorem C5_one_comma_passthrough (s : String) (h : s.data.count ',' = 1) :
    extract_location s = s := by
  unfold extract_location
  rw [if_pos h]

/-- Witness for C5 at the concrete input of the specification. -/
theorem C5_one_comma_passthrough_witness :
    "San Francisco, CA".data.count ',' = 1 ∧
      extract_location "San Francisco, CA" = "San Francisco, CA" :=
  ⟨by decide, C5_one_comma_passthrough "San Francisco, CA" (by decide)⟩

/-- Claim C9: `extract_location` is a total function (its type here),
an empty address yields the empty string, and an address with no commas
yields that text trimmed of leading and trailing white space. -/
theorem C9_total_degrades_gracefully :
    extract_location "" = "" ∧
      ∀ s : String, s.data.count ',' = 0 →
        extract_location s = String.mk (rustTrim s.data) := by
  constructor
  · decide
  · intro s h
    unfold extract_location
    rw [if_neg (by omega), splitOnComma_count_zero s.data h]

/-- Witness for C9 at the concrete inputs of the specification. -/
theorem C9_total_degrades_gracefully_witness :
    extract_location "" = "" ∧
      ("HeadquartersOnly".data.count ',' = 0 ∧
        extract_location "HeadquartersOnly" = "HeadquartersOnly") := by
  refine ⟨C9_total_degrades_gracefully.1, by decide, ?_⟩
  have h := C9_total_degrades_gracefully.2 "HeadquartersOnly" (by decide)
  rw [h]
  decide

/-- Claim C10: an address that splits into exactly 2 comma segments has
exactly one comma, so the `parts.len() == 2` match arm is dead: the early
return has already fired, the address is returned unchanged, and in
particular `extract_location` never returns only the (trimmed) second
segment of a one-comma address. -/
theorem C10_two_segment_arm_unreachable (s : String) (p0 p1 : List Char)
    (hsplit : splitOnComma s.data = [p0, p1]) :
    s.data.count ',' = 1 ∧ extract_location s = s ∧
      extract_location s ≠ String.mk (rustTrim p1) := by
  have hlen := length_splitOnComma s.data
  rw [hsplit] at hlen
  simp only [List.length_cons, List.length_nil] at hlen
  have hc : s.data.count ',' = 1 := by omega
  have hret : extract_location s = s := by
    unfold extract_location
    rw [if_pos hc]
  refine ⟨hc, hret, ?_⟩
  rw [hret]
  intro heq
  have hdata : s.data = rustTrim p1 := congrArg String.data heq
  have hmem : ',' ∈ s.data := by
    have : 0 < s.data.count ',' := by omega
    exact List.count_pos_iff.mp this
  rw [hdata] at hmem
  exact not_mem_comma_splitOnComma s.data p1
    (by rw [hsplit]; exact List.mem_cons_of_mem p0 (List.mem_cons_self p1 []))
    (mem_of_mem_rustTrim hmem)

/-- Witness for C10 at a concrete one-comma address. -/
theorem C10_two_segment_arm_unreachable_witness :
    "Boston, MA".data.count ',' = 1 ∧ extract_location "Boston, MA" = "Boston, MA" ∧
      extract_location "Boston, MA" ≠ String.mk (rustTrim " MA".data) :=
  C10_two_segment_arm_unreachable "Boston, MA" "Boston".data " MA".data (by decide)

/-- Claim C6: when the comma split has three or more segments and segment
index 2 contains a white-space-delimited token, the result is the trimmed
segment at index 1, then a comma and a space, then the first token of
segment index 2. -/
theorem C6_city_state_extraction (s : String) (p0 p1 p2 : List Char)
    (rest : List (List Char)) (tok : List Char)
    (hsplit : splitOnComma s.data = p0 :: p1 :: p2 :: rest)
    (htok : firstWhitespaceToken p2 = some tok) :
    extract_location s = String.mk (rustTrim p1) ++ ", " ++ String.mk tok := by
  have hlen := length_splitOnComma s.data
  rw [hsplit] at hlen
  simp only [List.length_cons] at hlen
  unfold extract_location
  rw [if_neg (by omega), hsplit]
  simp [htok]

/-- Witness for C6 at the concrete input of the specification. -/
theorem C6_city_state_extraction_witness :
    extract_location "123 Main St, Springfield, IL 62704" = "Springfield, IL" := by
  have h := C6_city_state_extraction "123 Main St, Springfield, IL 62704"
    "123 Main St".data " Springfield".data " IL 62704".data [] ['I', 'L']
    (by decide) (by decide)
  rw [h]
  decide

/-- Claim C1 is false on the code: for the specification's own example
`"123 Main St, Springfield,"` (three segments, the third empty, so no
white-space token in it), the result is not the bare city
`"Springfield"` — the `parts.len() >= 3` arm always appends `", "` and the
empty state part. -/
theorem C1_trailing_empty_segment_counterexample :
    extract_location "123 Main St, Springfield," ≠ "Springfield" := by
  decide

/-- Claim C1 as amended: when the comma split has three or more segments
and segment index 2 contains no white-space-delimited token, the result is
the trimmed segment at index 1 followed by a comma and a space (and an
empty state part), e.g. `"Springfield, "`, not the bare city. -/
theorem C1_trailing_empty_segment_amended (s : String) (p0 p1 p2 : List Char)
    (rest : List (List Char))
    (hsplit : splitOnComma s.data = p0 :: p1 :: p2 :: rest)
    (htok : firstWhitespaceToken p2 = none) :
    extract_location s = String.mk (rustTrim p1) ++ ", " := by
  have hlen := length_splitOnComma s.data
  rw [hsplit] at hlen
  simp only [List.length_cons] at hlen
  unfold extract_location
  rw [if_neg (by omega), hsplit]
  simp [htok]

/-- Witness for amended C1 at the specification's example input. -/
theorem C1_trailing_empty_segment_amended_witness :
    extract_location "123 Main St, Springfield," = "Springfield, " := by
  have h := C1_trailing_empty_segment_amended "123 Main St, Springfield,"
    "123 Main St".data " Springfield".data [] [] (by decide) (by decide)
  rw [h]
  decide

/-! ### Claim about sorting (C4) -/

theorem Date.le_refl (a : Date) : Date.le a a = true := by
  simp [Date.le]

theorem Date.le_trans {a b c : Date} (h1 : Date.le a b = true)
    (h2 : Date.le b c = true) : Date.le a c = true := by
  simp only [Date.le, decide_eq_true_eq] at h1 h2 ⊢
  omega

theorem Date.le_total (a b : Date) : (Date.le a b || Date.le b a) = true := by
  simp only [Date.le, Bool.or_eq_true, decide_eq_true_eq]
  omega

theorem endDateGE_trans : ∀ (a b c : WorkHistory),
    Date.le b.end_date a.end_date → Date.le c.end_date b.end_date →
    Date.le c.end_date a.end_date :=
  fun _ _ _ h1 h2 => Date.le_trans h2 h1

theorem endDateGE_total : ∀ (a b : WorkHistory),
    (Date.le b.end_date a.end_date || Date.le a.end_date b.end_date) = true :=
  fun a b => Date.le_total b.end_date a.end_date

/-- Claim C4: sorting produces a permutation of the decoded entries,
ordered by `end_date` descending, and entries sharing the same `end_date`
keep their relative source order (ties are not broken by any other field):
for every date `d`, the subsequence of entries whose `end_date` is `d` is
unchanged by the sort. -/
theorem C4_sort_descending_stable (l : List WorkHistory) :
    (sortWorkHistories l).Perm l
    ∧ (sortWorkHistories l).Pairwise
        (fun a b => Date.le b.end_date a.end_date = true)
    ∧ ∀ d : Date,
        (sortWorkHistories l).filter (fun e => decide (e.end_date = d))
          = l.filter (fun e => decide (e.end_date = d)) := by
  refine ⟨List.mergeSort_perm l _, ?_, ?_⟩
  · have h := @List.sorted_mergeSort WorkHistory
      (fun a b : WorkHistory => Date.le b.end_date a.end_date)
      endDateGE_trans endDateGE_total l
    exact h
  · intro d
    set p : WorkHistory → Bool := fun e => decide (e.end_date = d) with hp
    have hsub : (l.filter p).Sublist l := List.filter_sublist l
    have hpw : (l.filter p).Pairwise
        (fun a b : WorkHistory => Date.le b.end_date a.end_date) := by
      apply List.pairwise_of_forall_mem_list
      intro a ha b hb
      have ha2 : a.end_date = d := by
        have := (List.mem_filter.mp ha).2
        simpa [hp] using this
      have hb2 : b.end_date = d := by
        have := (List.mem_filter.mp hb).2
        simpa [hp] using this
      rw [ha2, hb2]
      exact Date.le_refl d
    have hsort : (l.filter p).Sublist (sortWorkHistories l) :=
      List.sublist_mergeSort endDateGE_trans endDateGE_total hpw hsub
    have hsub2 : (l.filter p).Sublist ((sortWorkHistories l).filter p) := by
      have h1 := hsort.filter p
      have h2 : (l.filter p).filter p = l.filter p :=
        List.filter_eq_self.mpr (fun a ha => (List.mem_filter.mp ha).2)
      rwa [h2] at h1
    have hperm : List.Perm ((sortWorkHistories l).filter p) (l.filter p) :=
      (List.mergeSort_perm l _).filter p
    exact (hsub2.eq_of_length hperm.length_eq.symm).symm

/-! ### Claim about row decoding failures (C2) -/

deriving instance DecidableEq for Except

theorem Except.ok_bind {ε α β : Type} (a : α) (f : α → Except ε β) :
    (Except.ok a >>= f : Except ε β) = f a := rfl

/-- Claim C2 is false on the code; this theorem records what the code does
at a 5-field data row with well-formed dates: decoding does not produce any
error value naming the row, it hits the out-of-bounds panic of
`record[6]`.  (No `MalformedRecordError` exists anywhere in the program.) -/
theorem C2_short_row_panics :
    decodeRecord ["Acme", "Engineer", "01/02/2020", "03/04/2021", "100 Main St"]
      = Except.error (RowError.panicIndexOutOfBounds 6) := by
  decide

/-! ### Claim about fail-fast processing (C7) -/

theorem readAndDecodeAll_first_error (pre : List (Except String (List String)))
    (bad : Except String (List String)) (post : List (Except String (List String)))
    (e : RowError)
    (hpre : ∀ r ∈ pre, (readDecodeOne r).isOk = true)
    (hbad : readDecodeOne bad = Except.error e) :
    readAndDecodeAll (pre ++ bad :: post) = Except.error e := by
  induction pre with
  | nil =>
    simp only [List.nil_append, readAndDecodeAll, hbad]
    rfl
  | cons p ps ih =>
    have hp := hpre p (List.mem_cons_self p ps)
    obtain ⟨wh, hwh⟩ : ∃ wh, readDecodeOne p = Except.ok wh := by
      cases hrd : readDecodeOne p with
      | ok wh => exact ⟨wh, rfl⟩
      | error e2 => rw [hrd] at hp; simp [Except.isOk, Except.toBool] at hp
    have ih2 := ih (fun r hr => hpre r (List.mem_cons_of_mem p hr))
    simp only [List.cons_append, readAndDecodeAll, hwh, Except.ok_bind, List.append_eq]
    rw [ih2]
    rfl

/-- Claim C7: if any row fails to decode (a csv read error, a date parse
failure — or even the short-row panic), the run aborts at the first
failure: the result is that first error, it does not depend on any of the
subsequent rows, and the output destination is never written (`none`). -/
theorem C7_fail_fast_no_output (pre : List (Except String (List String)))
    (bad : Except String (List String)) (post : List (Except String (List String)))
    (e : RowError)
    (hpre : ∀ r ∈ pre, (readDecodeOne r).isOk = true)
    (hbad : readDecodeOne bad = Except.error e) :
    processWorkHistory (pre ++ bad :: post) = (none, Except.error e) := by
  unfold processWorkHistory
  rw [readAndDecodeAll_first_error pre bad post e hpre hbad]

/-- Witness for C7: one good row, then a bad-date row, then another row
that is never reached; nothing is written. -/
theorem C7_fail_fast_no_output_witness :
    processWorkHistory
      [Except.ok ["A", "B", "01/02/2020", "03/04/2021", "X, Y", "S", "R"],
       Except.ok ["A", "B", "13/40/2020", "03/04/2021", "X", "S", "R"],
       Except.ok ["Z", "Z", "05/06/2022", "07/08/2022", "X", "S", "R"]]
      = (none, Except.error (RowError.dateFormat "Failed to parse date: 13/40/2020")) := by
  exact C7_fail_fast_no_output
    [Except.ok ["A", "B", "01/02/2020", "03/04/2021", "X, Y", "S", "R"]]
    (Except.ok ["A", "B", "13/40/2020", "03/04/2021", "X", "S", "R"])
    [Except.ok ["Z", "Z", "05/06/2022", "07/08/2022", "X", "S", "R"]]
    (RowError.dateFormat "Failed to parse date: 13/40/2020")
    (by decide) (by decide)

/-! ### Claim about rendering (C8) -/

/-- Claim C8 is false on the code in one detail: the year field is not
always four digits.  At an entry whose end date lies in year 12345 (such
dates are constructible and even reachable from a parsed input like
`"1/2/+12345"`), chrono's `%Y` renders `+12345` with an explicit sign,
while the specification's four-digit-year rendering would not. -/
theorem C8_four_digit_year_counterexample :
    renderReport [⟨"C", "P", ⟨2020, 1, 2⟩, ⟨12345, 6, 7⟩, "L", "R"⟩]
      ≠ claimRender [⟨"C", "P", ⟨2020, 1, 2⟩, ⟨12345, 6, 7⟩, "L", "R"⟩] := by
  decide

theorem claimYearAmended_eq_formatYear (y : Int) :
    claimYearAmended y = formatYear y := by
  unfold claimYearAmended formatYear
  by_cases h : 0 ≤ y ∧ y ≤ 9999
  · rw [if_pos h, if_pos (show 0 ≤ y ∧ y < 10000 by omega)]
  · rw [if_neg h, if_neg (show ¬(0 ≤ y ∧ y < 10000) by omega)]

theorem claimBlockAmended_eq_renderEntry (k : Nat) (h : WorkHistory) :
    claimBlockAmended k h = renderEntry k h := by
  unfold claimBlockAmended renderEntry claimDateAmended format_date formatMonth
  rw [claimYearAmended_eq_formatYear, claimYearAmended_eq_formatYear]

theorem renderFrom_eq_blocks (l : List WorkHistory) :
    ∀ i : Nat, renderFrom (i + 1) l
      = ((List.enumFrom i l).map (fun p => claimBlockAmended (p.1 + 1) p.2)).foldr
          (· ++ ·) "" := by
  induction l with
  | nil => intro i; rfl
  | cons h t ih =>
    intro i
    simp only [renderFrom, List.enumFrom_cons, List.map_cons, List.foldr_cons]
    rw [claimBlockAmended_eq_renderEntry, ih (i + 1)]

/-- Claim C8 as amended: the rendered output is exactly the blocks of the
entries in sequence, the `k`-th (1-based) headed by `Work History k`, each
block listing Company, Position, Start Date, End Date, Location and
Responsibilities with dates rendered as zero-padded two-digit month `/`
year — the year zero-padded to four digits when it lies in 0..=9999 and
written with an explicit sign otherwise — and every block, including the
last, followed by exactly one blank line. -/
theorem C8_render_blocks_amended (l : List WorkHistory) :
    renderReport l = claimRenderAmended l := by
  unfold renderReport claimRenderAmended
  have h := renderFrom_eq_blocks l 0
  simpa [List.enum] using h

/-! ### Claim about date parsing (C3) -/

/-- Claim C3's "only if" direction is false on the code: chrono's numeric
format items accept unpadded components, so `"1/2/300"` (one-digit month,
one-digit day, three-digit year) parses successfully even though it is not
in the strict two-digit/two-digit/four-digit `MM/DD/YYYY` shape. -/
theorem C3_strict_format_counterexample :
    parse_date "1/2/300" = Except.ok ⟨300, 1, 2⟩ ∧
      strictMMDDYYYY "1/2/300" = false := by
  constructor
  · decide
  · decide

theorem isRustWhitespace_eq_false_of_digit {c : Char} (h : isAsciiDigit c = true) :
    isRustWhitespace c = false := by
  simp only [isAsciiDigit, Bool.and_eq_true, decide_eq_true_eq] at h
  simp only [isRustWhitespace, Bool.or_eq_false_iff, Bool.and_eq_false_iff,
    decide_eq_false_iff_not]
  omega

theorem digit_not_minus {c : Char} (h : isAsciiDigit c = true) : ¬(c = '-') := by
  intro heq
  subst heq
  exact absurd h (by decide)

theorem digit_not_plus {c : Char} (h : isAsciiDigit c = true) : ¬(c = '+') := by
  intro heq
  subst heq
  exact absurd h (by decide)

theorem rustTrimStart_digits_append (dl rest : List Char)
    (hdl : ∀ c ∈ dl, isAsciiDigit c = true) (h1 : 1 ≤ dl.length) :
    rustTrimStart (dl ++ rest) = dl ++ rest := by
  cases dl with
  | nil => simp at h1
  | cons c t =>
    have hc := hdl c (List.mem_cons_self c t)
    simp [rustTrimStart, List.dropWhile_cons, isRustWhitespace_eq_false_of_digit hc]

theorem scanDigits_zero (acc : Nat) (s : List Char) :
    scanDigits acc 0 s = (acc, 0, s) := rfl

theorem scanDigits_succ_nil (acc mw : Nat) :
    scanDigits acc (mw + 1) [] = (acc, 0, []) := rfl

theorem scanDigits_succ_cons (acc mw : Nat) (c : Char) (rest : List Char) :
    scanDigits acc (mw + 1) (c :: rest) =
      if isAsciiDigit c then
        ((scanDigits (acc * 10 + digitVal c) mw rest).1,
         (scanDigits (acc * 10 + digitVal c) mw rest).2.1 + 1,
         (scanDigits (acc * 10 + digitVal c) mw rest).2.2)
      else (acc, 0, c :: rest) := rfl

theorem scanDigits_digits_append (dl : List Char) :
    ∀ (acc maxw : Nat) (rest : List Char),
      (∀ c ∈ dl, isAsciiDigit c = true) → dl.length ≤ maxw →
      (rest = [] ∨ ∃ c t, rest = c :: t ∧ isAsciiDigit c = false) →
      scanDigits acc maxw (dl ++ rest) = (digitsVal acc dl, dl.length, rest) := by
  induction dl with
  | nil =>
    intro acc maxw rest _ _ hrest
    rcases hrest with rfl | ⟨c, t, rfl, hc⟩
    · cases maxw with
      | zero => rfl
      | succ n => rfl
    · cases maxw with
      | zero => rfl
      | succ n =>
        show scanDigits acc (n + 1) (c :: t) = (acc, 0, c :: t)
        rw [scanDigits_succ_cons, if_neg (by simp [hc])]
  | cons d dl ih =>
    intro acc maxw rest hdl hlen hrest
    simp only [List.length_cons] at hlen
    obtain ⟨mw, rfl⟩ : ∃ mw, maxw = mw + 1 := ⟨maxw - 1, by omega⟩
    have hd := hdl d (List.mem_cons_self d dl)
    rw [List.cons_append, scanDigits_succ_cons, if_pos hd]
    rw [ih (acc * 10 + digitVal d) mw rest
      (fun c hc => hdl c (List.mem_cons_of_mem d hc)) (by omega) hrest]
    rfl

theorem scanNumber_digits_append (dl rest : List Char) (maxw : Nat)
    (hdl : ∀ c ∈ dl, isAsciiDigit c = true) (h1 : 1 ≤ dl.length)
    (h2 : dl.length ≤ maxw)
    (hrest : rest = [] ∨ ∃ c t, rest = c :: t ∧ isAsciiDigit c = false) :
    scanNumber maxw (dl ++ rest) = some (digitsVal 0 dl, rest) := by
  simp only [scanNumber, scanDigits_digits_append dl 0 maxw rest hdl h2 hrest]
  rw [if_neg (by omega)]

theorem parseSignedYear_digits (ys : List Char)
    (hys : ∀ c ∈ ys, isAsciiDigit c = true) (h1 : 1 ≤ ys.length)
    (h4 : ys.length ≤ 4) :
    parseSignedYear ys = some ((digitsVal 0 ys : Int), []) := by
  cases ys with
  | nil => simp at h1
  | cons y0 yt =>
    have h0 := hys y0 (List.mem_cons_self y0 yt)
    have hscan : scanNumber 4 (y0 :: yt) = some (digitsVal 0 (y0 :: yt), []) := by
      have h := scanNumber_digits_append (y0 :: yt) [] 4 hys h1 h4 (Or.inl rfl)
      rwa [List.append_nil] at h
    simp only [parseSignedYear, if_neg (digit_not_minus h0), if_neg (digit_not_plus h0),
      hscan]
    rfl

theorem expectSlash_cons (t : List Char) : expectSlash ('/' :: t) = some t := rfl

theorem parseDateChars_unpadded (ms dl ys : List Char)
    (hm : ∀ c ∈ ms, isAsciiDigit c = true) (hd : ∀ c ∈ dl, isAsciiDigit c = true)
    (hy : ∀ c ∈ ys, isAsciiDigit c = true)
    (hm1 : 1 ≤ ms.length) (hm2 : ms.length ≤ 2)
    (hd1 : 1 ≤ dl.length) (hd2 : dl.length ≤ 2)
    (hy1 : 1 ≤ ys.length) (hy2 : ys.length ≤ 4) :
    parseDateChars (ms ++ '/' :: (dl ++ '/' :: ys))
      = (if (⟨(digitsVal 0 ys : Int), digitsVal 0 ms, digitsVal 0 dl⟩ : Date).valid = true
          then some ⟨(digitsVal 0 ys : Int), digitsVal 0 ms, digitsVal 0 dl⟩
          else none) := by
  have hslash : ∀ t : List Char,
      ('/' :: t = [] ∨ ∃ c u, '/' :: t = c :: u ∧ isAsciiDigit c = false) :=
    fun t => Or.inr ⟨'/', t, rfl, by decide⟩
  have hystrim : rustTrimStart ys = ys := by
    have h := rustTrimStart_digits_append ys [] hy hy1
    rwa [List.append_nil] at h
  have hyscan := parseSignedYear_digits ys hy hy1 hy2
  unfold parseDateChars
  simp only [rustTrimStart_digits_append ms ('/' :: (dl ++ '/' :: ys)) hm hm1,
    scanNumber_digits_append ms ('/' :: (dl ++ '/' :: ys)) 2 hm hm1 hm2 (hslash _),
    Option.some_bind, expectSlash_cons,
    rustTrimStart_digits_append dl ('/' :: ys) hd hd1,
    scanNumber_digits_append dl ('/' :: ys) 2 hd hd1 hd2 (hslash _),
    hystrim, hyscan]
  simp

/-- Claim C3 as amended: `parse_date` accepts the shape
month `/` day `/` year with a 1-or-2-digit month, a 1-or-2-digit day and a
1-to-4-digit year — zero-padding is optional, so acceptance is strictly
broader than the exact two-digit `MM/DD/YYYY` shape — and within that
shape it succeeds exactly when the three components form a valid calendar
date, returning that date; otherwise the error carries the offending raw
text.  Non-numeric components, missing separators, out-of-range
month/day and trailing characters are all rejected (last conjuncts). -/
theorem C3_parse_date_amended (ms dl ys : List Char)
    (hm : ∀ c ∈ ms, isAsciiDigit c = true) (hd : ∀ c ∈ dl, isAsciiDigit c = true)
    (hy : ∀ c ∈ ys, isAsciiDigit c = true)
    (hm1 : 1 ≤ ms.length) (hm2 : ms.length ≤ 2)
    (hd1 : 1 ≤ dl.length) (hd2 : dl.length ≤ 2)
    (hy1 : 1 ≤ ys.length) (hy2 : ys.length ≤ 4) :
    (((⟨(digitsVal 0 ys : Int), digitsVal 0 ms, digitsVal 0 dl⟩ : Date).valid = true →
        parse_date (String.mk (ms ++ '/' :: (dl ++ '/' :: ys)))
          = Except.ok ⟨(digitsVal 0 ys : Int), digitsVal 0 ms, digitsVal 0 dl⟩)
      ∧ ((⟨(digitsVal 0 ys : Int), digitsVal 0 ms, digitsVal 0 dl⟩ : Date).valid = false →
        parse_date (String.mk (ms ++ '/' :: (dl ++ '/' :: ys)))
          = Except.error ("Failed to parse date: "
              ++ String.mk (ms ++ '/' :: (dl ++ '/' :: ys)))))
    ∧ parse_date "13/40/2020" = Except.error "Failed to parse date: 13/40/2020"
    ∧ parse_date "01022020" = Except.error "Failed to parse date: 01022020"
    ∧ parse_date "aa/bb/cccc" = Except.error "Failed to parse date: aa/bb/cccc"
    ∧ parse_date "01/02/2020x" = Except.error "Failed to parse date: 01/02/2020x" := by
  refine ⟨⟨?_, ?_⟩, by decide, by decide, by decide, by decide⟩
  · intro hv
    unfold parse_date
    rw [show (String.mk (ms ++ '/' :: (dl ++ '/' :: ys))).data
        = ms ++ '/' :: (dl ++ '/' :: ys) from rfl]
    rw [parseDateChars_unpadded ms dl ys hm hd hy hm1 hm2 hd1 hd2 hy1 hy2, if_pos hv]
  · intro hv
    unfold parse_date
    rw [show (String.mk (ms ++ '/' :: (dl ++ '/' :: ys))).data
        = ms ++ '/' :: (dl ++ '/' :: ys) from rfl]
    rw [parseDateChars_unpadded ms dl ys hm hd hy hm1 hm2 hd1 hd2 hy1 hy2,
      if_neg (by simp [hv])]

/-- Witness for amended C3: the strict format is accepted, and so is the
unpadded variant of the same date. -/
theorem C3_parse_date_amended_witness :
    parse_date "01/02/2020" = Except.ok ⟨2020, 1, 2⟩ ∧
      parse_date "1/2/2020" = Except.ok ⟨2020, 1, 2⟩ := by
  constructor
  · have h := (C3_parse_date_amended ['0', '1'] ['0', '2'] ['2', '0', '2', '0']
      (by decide) (by decide) (by decide) (by decide) (by decide)
      (by decide) (by decide) (by decide) (by decide)).1.1 (by decide)
    have e1 : "01/02/2020"
        = String.mk (['0', '1'] ++ '/' :: (['0', '2'] ++ '/' :: ['2', '0', '2', '0'])) := by
      decide
    have e2 : (⟨(digitsVal 0 ['2', '0', '2', '0'] : Int), digitsVal 0 ['0', '1'],
        digitsVal 0 ['0', '2']⟩ : Date) = ⟨2020, 1, 2⟩ := by decide
    rw [e1, h, e2]
  · have h := (C3_parse_date_amended ['1'] ['2'] ['2', '0', '2', '0']
      (by decide) (by decide) (by decide) (by decide) (by decide)
      (by decide) (by decide) (by decide) (by decide)).1.1 (by decide)
    have e1 : "1/2/2020"
        = String.mk (['1'] ++ '/' :: (['2'] ++ '/' :: ['2', '0', '2', '0'])) := by
      decide
    have e2 : (⟨(digitsVal 0 ['2', '0', '2', '0'] : Int), digitsVal 0 ['1'],
        digitsVal 0 ['2']⟩ : Date) = ⟨2020, 1, 2⟩ := by decide
    rw [e1, h, e2]
